import Mathlib

/-!
Shallow embedding of the compositing / caching core of `src/program.py`
(the `ImageOverlayApp` class of the shopify-shirt-preview-gen repository).

Pure image arithmetic (resize dimensions, offset reprojection, paste
clipping, opacity scaling, export padding) is translated directly from the
Python source.  The Python `int(...)` builtin applied to a float truncates toward
zero; the float arithmetic itself is modelled exactly over `ℚ`.  The pixel
arithmetic of the PIL LANCZOS resampling filter is external library code, so
the model is parametric in the resampling kernel; every dimension, mode and
cache decision is taken from the source.
-/

namespace ShirtPreview

/-- Python `int(...)` on a real value: truncation toward zero
(floor for nonnegative arguments, ceiling for negative ones). -/
def pyInt (q : ℚ) : ℤ :=
  if 0 ≤ q then ⌊q⌋ else ⌈q⌉

/-- An RGBA pixel; channel values live in 0..255. -/
structure Pixel where
  r : ℕ
  g : ℕ
  b : ℕ
  a : ℕ
  deriving DecidableEq

/-- A decoded raster image: pixel dimensions, a pixel lookup function, and
whether the image carries an alpha channel (PIL mode "RGBA" vs "RGB"). -/
structure Raster where
  width : ℕ
  height : ℕ
  pix : ℕ → ℕ → Pixel
  hasAlpha : Bool

/-- The pixel arithmetic of a resampling filter (PIL `Image.resize` with
`Image.Resampling.LANCZOS`): given the source raster, the target size and an
output coordinate, it produces the output pixel.  The filter itself is
external library code, so the whole development is parametric in it. -/
def ResampleKernel : Type :=
  Raster → ℕ × ℕ → ℕ → ℕ → Pixel

/-- PIL `img.resize((nw, nh), Image.Resampling.LANCZOS)`: the output has
exactly the requested dimensions and the mode of the source; pixels come
from the resampling kernel. -/
def Raster.resize (k : ResampleKernel) (img : Raster) (nw nh : ℕ) : Raster :=
  { width := nw, height := nh, pix := fun x y => k img (nw, nh) x y,
    hasAlpha := img.hasAlpha }

/-- `base_ratio = min(canvas_width / base_width, canvas_height / base_height)`
(src/program.py lines 497-499 and 529-531). -/
def baseRatio (canvasW canvasH w h : ℕ) : ℚ :=
  min ((canvasW : ℚ) / (w : ℚ)) ((canvasH : ℚ) / (h : ℚ))

/-- Dimensions of the base image resized to fit the canvas:
`new_width = int(base_width * base_ratio)`,
`new_height = int(base_height * base_ratio)` (src/program.py lines 496-501). -/
def fitDims (canvasW canvasH w h : ℕ) : ℕ × ℕ :=
  ((pyInt ((w : ℚ) * baseRatio canvasW canvasH w h)).toNat,
   (pyInt ((h : ℚ) * baseRatio canvasW canvasH w h)).toNat)

/-- Dimensions of the resized graphic: first scaled by the base ratio
(`graphic_width = int(graphic_img.width * base_ratio)`), then independently
stretched per axis (`graphic_width = int(graphic_width * scale_x_factor)`
with `scale_x_factor = scale_x / 100.0`; src/program.py lines 528-539).
The reference layer uses the same two-stage computation against its own
dimensions (lines 605-617). -/
def graphicDims (canvasW canvasH bw bh gw gh : ℕ) (sx sy : ℤ) : ℕ × ℕ :=
  let r := baseRatio canvasW canvasH bw bh
  let gw1 := (pyInt ((gw : ℚ) * r)).toNat
  let gh1 := (pyInt ((gh : ℚ) * r)).toNat
  ((pyInt ((gw1 : ℚ) * ((sx : ℚ) / 100))).toNat,
   (pyInt ((gh1 : ℚ) * ((sy : ℚ) / 100))).toNat)

/-- Reprojection of a user offset into resized-base pixel space:
`x_scale = resized_base.width / base_width`,
`x_pos = int(x_coord * x_scale)` (src/program.py lines 513-517). -/
def reprojectOffset (coord : ℤ) (resizedW origW : ℕ) : ℤ :=
  pyInt ((coord : ℚ) * ((resizedW : ℚ) / (origW : ℚ)))

/-- The PIL fixed-point approximation of `round(a * b / 255)` used by paste
blending (the `MULDIV255` macro: `tmp = a*b + 128; ((tmp >> 8) + tmp) >> 8`). -/
def mulDiv255 (a b : ℕ) : ℕ :=
  ((a * b + 128) / 256 + (a * b + 128)) / 256

/-- Per-pixel source-over blend performed by PIL `paste` when the pasted
RGBA image doubles as its own mask. -/
def blendPixel (dst src : Pixel) : Pixel :=
  { r := mulDiv255 dst.r (255 - src.a) + mulDiv255 src.r src.a,
    g := mulDiv255 dst.g (255 - src.a) + mulDiv255 src.g src.a,
    b := mulDiv255 dst.b (255 - src.a) + mulDiv255 src.b src.a,
    a := mulDiv255 dst.a (255 - src.a) + mulDiv255 src.a src.a }

/-- PIL `dst.paste(src, (px, py))`, and `dst.paste(src, (px, py), src)` when
`useMask` is set (src/program.py lines 552-558, 683-691).  The paste box may
lie partially or entirely outside the destination; PIL clips it silently and
the destination keeps its dimensions and mode.  Destination pixels inside
the clipped box are overwritten (or alpha-blended when masked); all other
pixels are untouched. -/
def Raster.paste (dst src : Raster) (px py : ℤ) (useMask : Bool) : Raster :=
  { width := dst.width, height := dst.height, hasAlpha := dst.hasAlpha,
    pix := fun x y =>
      if 0 ≤ (x : ℤ) - px ∧ (x : ℤ) - px < (src.width : ℤ) ∧
          0 ≤ (y : ℤ) - py ∧ (y : ℤ) - py < (src.height : ℤ) ∧
          x < dst.width ∧ y < dst.height then
        let s := src.pix ((x : ℤ) - px).toNat ((y : ℤ) - py).toNat
        if useMask then blendPixel (dst.pix x y) s else s
      else dst.pix x y }

/-- PIL `img.convert("RGBA")` as used on the reference layer: if the image
already has an alpha channel it is unchanged, otherwise a fully opaque alpha
channel is added (src/program.py lines 624-625). -/
def toRGBA (img : Raster) : Raster :=
  if img.hasAlpha then img
  else { width := img.width, height := img.height, hasAlpha := true,
         pix := fun x y => { img.pix x y with a := 255 } }

/-- Opacity application on the reference layer: after converting to RGBA,
`opacity = reference_opacity / 100.0` and the alpha band is mapped through
`lambda x: int(x * opacity)` (src/program.py lines 623-634). -/
def applyOpacity (img : Raster) (p : ℤ) : Raster :=
  let rgba := toRGBA img
  { width := rgba.width, height := rgba.height, hasAlpha := rgba.hasAlpha,
    pix := fun x y =>
      let q := rgba.pix x y
      { q with a := (pyInt ((q.a : ℚ) * ((p : ℚ) / 100))).toNat } }

/-- The `self.cache` dictionary of `ImageOverlayApp.__init__`
(src/program.py lines 62-76): decoded rasters keyed by path, derived
(resized) rasters, and the invalidation keys actually stored by the code. -/
structure Cache where
  base_img : Option Raster
  graphic_img : Option Raster
  reference_img : Option Raster
  base_path : Option String
  graphic_path : Option String
  reference_path : Option String
  resized_base : Option Raster
  resized_graphic : Option Raster
  resized_reference : Option Raster
  last_canvas_size : ℕ × ℕ
  last_scale : ℤ × ℤ
  last_ref_scale : ℤ × ℤ
  last_opacity : ℤ

/-- The user-facing parameter snapshot: the Tk variables of
`ImageOverlayApp.__init__` (src/program.py lines 44-59).  An empty string
means no path is set. -/
structure Params where
  base_path : String
  graphic_path : String
  reference_path : String
  x_coord : ℤ
  y_coord : ℤ
  scale_x : ℤ
  scale_y : ℤ
  show_reference : Bool
  reference_opacity : ℤ
  reference_x : ℤ
  reference_y : ℤ
  reference_scale_x : ℤ
  reference_scale_y : ℤ
  apply_background : Bool

/-- An item drawn on the preview canvas by `update_preview`: either the
composite (anchored at the canvas center, lines 570-576) or the reference
overlay (anchored at canvas center plus reference offset, lines 652-658). -/
inductive CanvasItem where
  | composite (cx cy : ℕ) (img : Raster)
  | reference (x y : ℤ) (img : Raster)

/-- Mutable application state touched by `update_preview` and the export
commands: the cache, the stored composite (`self.current_composite`), the
canvas display list, and a counter instrumenting how many times the graphic
resize filter has been invoked (the observable in terms of which the
cache-correctness property of the spec is stated). -/
structure AppState where
  cache : Cache
  current_composite : Option Raster
  preview_items : List CanvasItem
  graphicResizeCount : ℕ

/-- The cache as initialised in `__init__` (src/program.py lines 62-76). -/
def initCache : Cache :=
  { base_img := none, graphic_img := none, reference_img := none,
    base_path := none, graphic_path := none, reference_path := none,
    resized_base := none, resized_graphic := none, resized_reference := none,
    last_canvas_size := (0, 0), last_scale := (100, 100),
    last_ref_scale := (100, 100), last_opacity := 30 }

/-- Application state before any render: no composite has been produced. -/
def initState : AppState :=
  { cache := initCache, current_composite := none, preview_items := [],
    graphicResizeCount := 0 }

/-- The decode-if-path-changed-or-missing pattern used for all three layers
(src/program.py lines 471-478, 481-488, 586-593): when the cached path
differs from the requested one or no raster is cached, the file is opened
(`disk` models `Image.open`; `none` means the open raises).  A failed open
raises before any cache field is assigned, so on error the cache pair is
unchanged.  Returns the raster to use plus the updated path/raster pair. -/
def loadLayer (disk : String → Option Raster) (cPath : Option String)
    (cImg : Option Raster) (path : String) :
    Except Unit (Raster × Option String × Option Raster) :=
  match cImg with
  | some img =>
    if cPath = some path then .ok (img, cPath, some img)
    else
      match disk path with
      | none => .error ()
      | some fresh => .ok (fresh, some path, some fresh)
  | none =>
    match disk path with
    | none => .error ()
    | some fresh => .ok (fresh, some path, some fresh)

/-- The graphic resize step of `update_preview` (src/program.py lines
523-546): the cached derived raster is recomputed only when the stored
`last_scale` pair differs from the current scale pair or no derived raster
is cached; otherwise the cached raster is reused as is.  The returned
counter increments exactly when the resize filter runs. -/
def get_resized_graphic (k : ResampleKernel) (c : Cache) (graphic_img : Raster)
    (cw ch bw bh : ℕ) (sx sy : ℤ) (count : ℕ) : Raster × Cache × ℕ :=
  if c.last_scale ≠ (sx, sy) ∨ c.resized_graphic.isNone then
    let d := graphicDims cw ch bw bh graphic_img.width graphic_img.height sx sy
    let g := graphic_img.resize k d.1 d.2
    (g, { c with resized_graphic := some g, last_scale := (sx, sy) }, count + 1)
  else
    (c.resized_graphic.getD graphic_img, c, count)

/-- The top-left paste position of the graphic (src/program.py lines
519-521 and 548-550): `center_x = resized_base.width // 2`,
`paste_x = center_x + x_pos - (graphic_resized.width // 2)`, and
analogously for y. -/
def pastePosition (resized_base graphic_resized : Raster)
    (x_pos y_pos : ℤ) : ℤ × ℤ :=
  (((resized_base.width / 2 : ℕ) : ℤ) + x_pos -
     ((graphic_resized.width / 2 : ℕ) : ℤ),
   ((resized_base.height / 2 : ℕ) : ℤ) + y_pos -
     ((graphic_resized.height / 2 : ℕ) : ℤ))

/-- The composite branch of `update_preview` (src/program.py lines 468-580):
load base and graphic (decode errors abort the branch, caught at line 578),
resize the base if the canvas size changed, reproject the user offsets,
resize the graphic if the scale pair changed, paste, and store the result
in `current_composite`. -/
def compositeStage (k : ResampleKernel) (disk : String → Option Raster)
    (p : Params) (cw ch : ℕ) (st : AppState) : AppState :=
  match loadLayer disk st.cache.base_path st.cache.base_img p.base_path with
  | .error _ => st
  | .ok (base_img, bPath, bImg) =>
    let st := { st with cache :=
      { st.cache with base_path := bPath, base_img := bImg } }
    match loadLayer disk st.cache.graphic_path st.cache.graphic_img
        p.graphic_path with
    | .error _ => st
    | .ok (graphic_img, gPath, gImg) =>
      let c0 := { st.cache with graphic_path := gPath, graphic_img := gImg }
      let rbPair :=
        if c0.last_canvas_size ≠ (cw, ch) ∨ c0.resized_base.isNone then
          let d := fitDims cw ch base_img.width base_img.height
          let rb := base_img.resize k d.1 d.2
          (rb, { c0 with resized_base := some rb, last_canvas_size := (cw, ch) })
        else
          (c0.resized_base.getD base_img, c0)
      let resized_base := rbPair.1
      let c1 := rbPair.2
      let composite := resized_base
      let x_pos := reprojectOffset p.x_coord resized_base.width base_img.width
      let y_pos := reprojectOffset p.y_coord resized_base.height base_img.height
      let gTriple := get_resized_graphic k c1 graphic_img cw ch
        base_img.width base_img.height p.scale_x p.scale_y st.graphicResizeCount
      let graphic_resized := gTriple.1
      let c2 := gTriple.2.1
      let cnt := gTriple.2.2
      let pp := pastePosition resized_base graphic_resized x_pos y_pos
      let composite := composite.paste graphic_resized pp.1 pp.2
        graphic_resized.hasAlpha
      { st with
        cache := c2,
        current_composite := some composite,
        graphicResizeCount := cnt,
        preview_items := st.preview_items ++
          [CanvasItem.composite (cw / 2) (ch / 2) composite] }

/-- The reference branch of `update_preview` (src/program.py lines 582-658):
load the reference image, recompute its derived raster when the scale pair
or opacity changed (ratio-fit to canvas, per-axis user scale, RGBA
conversion, opacity applied to the alpha band), and draw it as a separate
canvas item at canvas center plus the reference offset.  It never touches
`current_composite`. -/
def referenceStage (k : ResampleKernel) (disk : String → Option Raster)
    (p : Params) (cw ch : ℕ) (st : AppState) : AppState :=
  match loadLayer disk st.cache.reference_path st.cache.reference_img
      p.reference_path with
  | .error _ => st
  | .ok (reference_img, rPath, rImg) =>
    let c0 := { st.cache with reference_path := rPath, reference_img := rImg }
    let cur := (p.reference_scale_x, p.reference_scale_y)
    let rrPair :=
      if c0.last_ref_scale ≠ cur ∨ c0.last_opacity ≠ p.reference_opacity ∨
          c0.resized_reference.isNone then
        let d := graphicDims cw ch reference_img.width reference_img.height
          reference_img.width reference_img.height
          p.reference_scale_x p.reference_scale_y
        let rr0 := reference_img.resize k d.1 d.2
        let rr := applyOpacity rr0 p.reference_opacity
        (rr, { c0 with
               resized_reference := some rr,
               last_ref_scale := cur,
               last_opacity := p.reference_opacity })
      else
        (c0.resized_reference.getD reference_img, c0)
    let resized_reference := rrPair.1
    let c1 := rrPair.2
    let x_pos := ((cw / 2 : ℕ) : ℤ) + p.reference_x
    let y_pos := ((ch / 2 : ℕ) : ℤ) + p.reference_y
    { st with
      cache := c1,
      preview_items := st.preview_items ++
        [CanvasItem.reference x_pos y_pos resized_reference] }

/-- `ImageOverlayApp.update_preview` (src/program.py lines 445-660): clamp
degenerate canvas dimensions to the 400 pixel minimum, clear the canvas,
run the composite branch when both base and graphic paths are set, then run
the reference branch when a reference path is set and the layer is visible. -/
def update_preview (k : ResampleKernel) (disk : String → Option Raster)
    (p : Params) (rawW rawH : ℕ) (st : AppState) : AppState :=
  let cw := if rawW ≤ 1 then 400 else rawW
  let ch := if rawH ≤ 1 then 400 else rawH
  let st := { st with preview_items := [] }
  let st :=
    if p.base_path ≠ "" ∧ p.graphic_path ≠ "" then
      compositeStage k disk p cw ch st
    else st
  if p.reference_path ≠ "" ∧ p.show_reference then
    referenceStage k disk p cw ch st
  else st

/-- The gray background pixel `#b4b4b4` used when padding the export
(src/program.py line 681). -/
def grayPixel : Pixel :=
  { r := 180, g := 180, b := 180, a := 255 }

/-- The 10 percent padding amount: `int(width * 0.1)`
(src/program.py lines 673-674). -/
def padAmount (n : ℕ) : ℕ :=
  (pyInt ((n : ℚ) * ((1 : ℚ) / 10))).toNat

/-- The background/padding step of export (src/program.py lines 671-695):
when the background toggle is off the composite is returned unchanged; when
on, a new opaque `#b4b4b4` buffer 10 percent larger on each side is
allocated and the composite is pasted at the padding offset, alpha-blended
exactly when the composite mode is RGBA. -/
def apply_padding (composite : Raster) (enabled : Bool) : Raster :=
  if enabled then
    let padX := padAmount composite.width
    let padY := padAmount composite.height
    let background : Raster :=
      { width := composite.width + padX * 2,
        height := composite.height + padY * 2,
        pix := fun _ _ => grayPixel, hasAlpha := false }
    background.paste composite (padX : ℤ) (padY : ℤ) composite.hasAlpha
  else composite

/-- Outcome of an export or save-as request.  Only `saved` writes a file;
`emptyComposite` is the `EmptyCompositeError` of the spec (the code shows the
"No image to export" dialog and returns, src/program.py lines 663-668 and
709-714); `cancelled` is the user dismissing the save dialog. -/
inductive ExportResult where
  | emptyComposite
  | cancelled
  | saved (img : Raster)

/-- `ImageOverlayApp.export_image` (src/program.py lines 662-706): with no
stored composite it reports the error and returns without touching state or
disk; otherwise it serializes the optionally padded composite. -/
def export_image (st : AppState) (applyBackground : Bool) :
    ExportResult × AppState :=
  match st.current_composite with
  | none => (.emptyComposite, st)
  | some c => (.saved (apply_padding c applyBackground), st)

/-- `ImageOverlayApp.save_as` (src/program.py lines 708-766): identical
empty-composite guard; `chosen = none` models the user cancelling the file
dialog, in which case nothing is written either. -/
def save_as (st : AppState) (applyBackground : Bool) (chosen : Option String) :
    ExportResult × AppState :=
  match st.current_composite with
  | none => (.emptyComposite, st)
  | some c =>
    match chosen with
    | none => (.cancelled, st)
    | some _ => (.saved (apply_padding c applyBackground), st)

/-! ## Helper lemmas -/

theorem pyInt_of_nonneg {q : ℚ} (h : 0 ≤ q) : pyInt q = ⌊q⌋ := by
  simp [pyInt, h]

theorem pyInt_of_neg {q : ℚ} (h : q < 0) : pyInt q = ⌈q⌉ := by
  simp [pyInt, not_le.mpr h]

theorem baseRatio_nonneg (cw ch w h : ℕ) : 0 ≤ baseRatio cw ch w h :=
  le_min (by positivity) (by positivity)

/-- C2. For positive base dimensions (w, h) and positive canvas dimensions
(cw, ch), the resized base has dimensions (⌊w·r⌋, ⌊h·r⌋) with
r = min(cw/w, ch/h); both dimensions stay within the canvas, each is within
one pixel of the exact uniform scaling (so the aspect ratio is preserved
within 1-pixel rounding), and at least one dimension meets its canvas
bound. -/
theorem resized_base_dims_spec (w h cw ch : ℕ) (hw : 0 < w) (hh : 0 < h)
    (hcw : 0 < cw) (hch : 0 < ch) :
    ((fitDims cw ch w h).1 : ℤ) = ⌊(w : ℚ) * baseRatio cw ch w h⌋ ∧
    ((fitDims cw ch w h).2 : ℤ) = ⌊(h : ℚ) * baseRatio cw ch w h⌋ ∧
    (fitDims cw ch w h).1 ≤ cw ∧ (fitDims cw ch w h).2 ≤ ch ∧
    ((fitDims cw ch w h).1 = cw ∨ (fitDims cw ch w h).2 = ch) ∧
    (w : ℚ) * baseRatio cw ch w h - 1 < ((fitDims cw ch w h).1 : ℚ) ∧
    (h : ℚ) * baseRatio cw ch w h - 1 < ((fitDims cw ch w h).2 : ℚ) := by
  have hwq : (0 : ℚ) < (w : ℚ) := by exact_mod_cast hw
  have hhq : (0 : ℚ) < (h : ℚ) := by exact_mod_cast hh
  have hr : 0 ≤ baseRatio cw ch w h := baseRatio_nonneg cw ch w h
  have hwr : 0 ≤ (w : ℚ) * baseRatio cw ch w h := mul_nonneg hwq.le hr
  have hhr : 0 ≤ (h : ℚ) * baseRatio cw ch w h := mul_nonneg hhq.le hr
  have e1 : ((fitDims cw ch w h).1 : ℤ) = ⌊(w : ℚ) * baseRatio cw ch w h⌋ := by
    simp only [fitDims, pyInt_of_nonneg hwr]
    exact Int.toNat_of_nonneg (Int.floor_nonneg.mpr hwr)
  have e2 : ((fitDims cw ch w h).2 : ℤ) = ⌊(h : ℚ) * baseRatio cw ch w h⌋ := by
    simp only [fitDims, pyInt_of_nonneg hhr]
    exact Int.toNat_of_nonneg (Int.floor_nonneg.mpr hhr)
  have hb1 : (fitDims cw ch w h).1 ≤ cw := by
    have hle : (w : ℚ) * baseRatio cw ch w h ≤ (cw : ℚ) := by
      have h1 : baseRatio cw ch w h ≤ (cw : ℚ) / (w : ℚ) := min_le_left _ _
      calc (w : ℚ) * baseRatio cw ch w h
          ≤ (w : ℚ) * ((cw : ℚ) / (w : ℚ)) :=
            mul_le_mul_of_nonneg_left h1 hwq.le
        _ = (cw : ℚ) := by field_simp
    have : ((fitDims cw ch w h).1 : ℤ) ≤ (cw : ℤ) := by
      rw [e1]
      calc ⌊(w : ℚ) * baseRatio cw ch w h⌋ ≤ ⌊(cw : ℚ)⌋ :=
            Int.floor_le_floor hle
        _ = (cw : ℤ) := Int.floor_natCast cw
    exact_mod_cast this
  have hb2 : (fitDims cw ch w h).2 ≤ ch := by
    have hle : (h : ℚ) * baseRatio cw ch w h ≤ (ch : ℚ) := by
      have h1 : baseRatio cw ch w h ≤ (ch : ℚ) / (h : ℚ) := min_le_right _ _
      calc (h : ℚ) * baseRatio cw ch w h
          ≤ (h : ℚ) * ((ch : ℚ) / (h : ℚ)) :=
            mul_le_mul_of_nonneg_left h1 hhq.le
        _ = (ch : ℚ) := by field_simp
    have : ((fitDims cw ch w h).2 : ℤ) ≤ (ch : ℤ) := by
      rw [e2]
      calc ⌊(h : ℚ) * baseRatio cw ch w h⌋ ≤ ⌊(ch : ℚ)⌋ :=
            Int.floor_le_floor hle
        _ = (ch : ℤ) := Int.floor_natCast ch
    exact_mod_cast this
  have htight : (fitDims cw ch w h).1 = cw ∨ (fitDims cw ch w h).2 = ch := by
    rcases le_total ((cw : ℚ) / (w : ℚ)) ((ch : ℚ) / (h : ℚ)) with hmin | hmin
    · left
      have hrw : baseRatio cw ch w h = (cw : ℚ) / (w : ℚ) := min_eq_left hmin
      have : (w : ℚ) * baseRatio cw ch w h = (cw : ℚ) := by
        rw [hrw]; field_simp
      have : ((fitDims cw ch w h).1 : ℤ) = (cw : ℤ) := by
        rw [e1, this, Int.floor_natCast]
      exact_mod_cast this
    · right
      have hrh : baseRatio cw ch w h = (ch : ℚ) / (h : ℚ) := min_eq_right hmin
      have : (h : ℚ) * baseRatio cw ch w h = (ch : ℚ) := by
        rw [hrh]; field_simp
      have : ((fitDims cw ch w h).2 : ℤ) = (ch : ℤ) := by
        rw [e2, this, Int.floor_natCast]
      exact_mod_cast this
  have hc1 : (w : ℚ) * baseRatio cw ch w h - 1 < ((fitDims cw ch w h).1 : ℚ) := by
    have hf := Int.sub_one_lt_floor ((w : ℚ) * baseRatio cw ch w h)
    have hcast : (((fitDims cw ch w h).1 : ℤ) : ℚ) =
        ((⌊(w : ℚ) * baseRatio cw ch w h⌋ : ℤ) : ℚ) := by exact_mod_cast e1
    push_cast at hcast
    rw [← hcast] at hf
    exact_mod_cast hf
  have hc2 : (h : ℚ) * baseRatio cw ch w h - 1 < ((fitDims cw ch w h).2 : ℚ) := by
    have hf := Int.sub_one_lt_floor ((h : ℚ) * baseRatio cw ch w h)
    have hcast : (((fitDims cw ch w h).2 : ℤ) : ℚ) =
        ((⌊(h : ℚ) * baseRatio cw ch w h⌋ : ℤ) : ℚ) := by exact_mod_cast e2
    push_cast at hcast
    rw [← hcast] at hf
    exact_mod_cast hf
  exact ⟨e1, e2, hb1, hb2, htight, hc1, hc2⟩

/-- Witness for C2 at end-to-end scenario 1 of the spec: base 800×600 on a
400×400 canvas. -/
theorem resized_base_dims_spec_witness :
    0 < 800 ∧ 0 < 600 ∧ 0 < 400 ∧
    (((fitDims 400 400 800 600).1 : ℤ) = ⌊(800 : ℚ) * baseRatio 400 400 800 600⌋ ∧
     ((fitDims 400 400 800 600).2 : ℤ) = ⌊(600 : ℚ) * baseRatio 400 400 800 600⌋ ∧
     (fitDims 400 400 800 600).1 ≤ 400 ∧ (fitDims 400 400 800 600).2 ≤ 400 ∧
     ((fitDims 400 400 800 600).1 = 400 ∨ (fitDims 400 400 800 600).2 = 400) ∧
     (800 : ℚ) * baseRatio 400 400 800 600 - 1 < ((fitDims 400 400 800 600).1 : ℚ) ∧
     (600 : ℚ) * baseRatio 400 400 800 600 - 1 < ((fitDims 400 400 800 600).2 : ℚ)) :=
  ⟨by norm_num, by norm_num, by norm_num,
   resized_base_dims_spec 800 600 400 400 (by norm_num) (by norm_num)
     (by norm_num) (by norm_num)⟩

/-- C3 counterexample. The claim says the render step computes
`x_pos = round(x_coord * resized_base.width / original_base.width)`; the
code applies Python `int(...)`, which truncates.  At `x_coord = 3`,
`resized_base.width = 1`, `original_base.width = 2` the exact value is
1.5: the code produces 1 while rounding produces 2. -/
theorem offset_reprojection_not_round :
    reprojectOffset 3 1 2 ≠ round ((3 : ℚ) * (((1 : ℕ) : ℚ) / ((2 : ℕ) : ℚ))) := by
  have h1 : reprojectOffset 3 1 2 = 1 := by
    norm_num [reprojectOffset, pyInt]
  have h2 : round ((3 : ℚ) * (((1 : ℕ) : ℚ) / ((2 : ℕ) : ℚ))) = 2 := by
    norm_num [round_eq]
  rw [h1, h2]
  norm_num

/-- C3 amended. For every user offset in [-1000, 1000] (negative values
included), the render step computes the position delta in resized-base
pixel space as the exact quotient `x_coord * resized_base.width /
original_base.width` truncated toward zero (not rounded): the sign of the
offset times the floor of the absolute value. -/
theorem offset_reprojection_truncates (coord : ℤ) (resizedW origW : ℕ)
    (hlo : -1000 ≤ coord) (hhi : coord ≤ 1000) :
    reprojectOffset coord resizedW origW =
      coord.sign * ⌊|(coord : ℚ)| * ((resizedW : ℚ) / (origW : ℚ))⌋ := by
  have hs : (0 : ℚ) ≤ (resizedW : ℚ) / (origW : ℚ) := by positivity
  rcases lt_trichotomy coord 0 with hneg | hzero | hpos
  · rcases eq_or_lt_of_le hs with hs0 | hspos
    · simp only [reprojectOffset, ← hs0, mul_zero, pyInt_of_nonneg le_rfl]
      simp
    · have hcq : ((coord : ℚ)) < 0 := by exact_mod_cast hneg
      have hq : (coord : ℚ) * ((resizedW : ℚ) / (origW : ℚ)) < 0 :=
        mul_neg_of_neg_of_pos hcq hspos
      simp only [reprojectOffset]
      rw [pyInt_of_neg hq,
        show (coord : ℚ) * ((resizedW : ℚ) / (origW : ℚ)) =
          -(|(coord : ℚ)| * ((resizedW : ℚ) / (origW : ℚ))) by
            rw [abs_of_neg hcq]; ring,
        Int.ceil_neg, Int.sign_eq_neg_one_of_neg hneg]
      ring
  · subst hzero
    simp [reprojectOffset, pyInt]
  · have hcq : (0 : ℚ) ≤ (coord : ℚ) := by exact_mod_cast hpos.le
    have hq : 0 ≤ (coord : ℚ) * ((resizedW : ℚ) / (origW : ℚ)) :=
      mul_nonneg hcq hs
    simp only [reprojectOffset]
    rw [pyInt_of_nonneg hq, abs_of_nonneg hcq,
      Int.sign_eq_one_of_pos hpos, one_mul]

/-- Witness for the amended C3 at the negative offset -3 with the resized
base half the original width. -/
theorem offset_reprojection_truncates_witness :
    -1000 ≤ (-3 : ℤ) ∧ (-3 : ℤ) ≤ 1000 ∧
    reprojectOffset (-3) 1 2 =
      (-3 : ℤ).sign * ⌊|((-3 : ℤ) : ℚ)| * (((1 : ℕ) : ℚ) / ((2 : ℕ) : ℚ))⌋ :=
  ⟨by norm_num, by norm_num,
   offset_reprojection_truncates (-3) 1 2 (by norm_num) (by norm_num)⟩

/-- A raster of constant pixels, used as concrete test data. -/
def solidRaster (w h : ℕ) (p : Pixel) (alpha : Bool) : Raster :=
  { width := w, height := h, pix := fun _ _ => p, hasAlpha := alpha }

/-- C4 counterexample. The claim says the derived reference alpha equals
`round(A * p/100)`; the code maps the alpha band through
`lambda x: int(x * opacity)`, which truncates.  At alpha 3 and opacity 60
the exact value is 1.8: the code produces 1 while rounding produces 2. -/
theorem opacity_not_round :
    (((applyOpacity (solidRaster 1 1 ⟨0, 0, 0, 3⟩ true) 60).pix 0 0).a : ℤ) ≠
      round ((3 : ℚ) * ((60 : ℚ) / 100)) := by
  have h1 : ((applyOpacity (solidRaster 1 1 ⟨0, 0, 0, 3⟩ true) 60).pix 0 0).a = 1 := by
    norm_num [applyOpacity, toRGBA, solidRaster, pyInt]
  have h2 : round ((3 : ℚ) * ((60 : ℚ) / 100)) = 2 := by
    norm_num [round_eq]
  rw [h1, h2]
  norm_num

/-- C4 amended. For every pixel of the reference raster (an alpha channel
being added, fully opaque, when the raster lacks one) and every opacity
percentage p in [0, 100], the derived alpha equals ⌊A · p/100⌋ where A is
the pixel alpha after RGBA conversion; p = 0 yields fully transparent
output and p = 100 leaves every alpha value unchanged. -/
theorem opacity_alpha_floor (img : Raster) (p : ℤ) (x y : ℕ)
    (hp0 : 0 ≤ p) (hp1 : p ≤ 100) :
    ((((applyOpacity img p).pix x y).a : ℤ) =
      ⌊((((toRGBA img).pix x y).a : ℚ) * ((p : ℚ) / 100))⌋) ∧
    (p = 0 → ((applyOpacity img p).pix x y).a = 0) ∧
    (p = 100 → ((applyOpacity img p).pix x y).a = ((toRGBA img).pix x y).a) ∧
    (img.hasAlpha = false → ((toRGBA img).pix x y).a = 255) := by
  have hpq : (0 : ℚ) ≤ (p : ℚ) := by exact_mod_cast hp0
  have hq : 0 ≤ ((((toRGBA img).pix x y).a : ℚ) * ((p : ℚ) / 100)) := by
    positivity
  have hmain : ((((applyOpacity img p).pix x y).a : ℤ) =
      ⌊((((toRGBA img).pix x y).a : ℚ) * ((p : ℚ) / 100))⌋) := by
    simp only [applyOpacity, pyInt_of_nonneg hq]
    exact Int.toNat_of_nonneg (Int.floor_nonneg.mpr hq)
  refine ⟨hmain, ?_, ?_, ?_⟩
  · intro hp
    subst hp
    have : ((((applyOpacity img 0).pix x y).a : ℤ)) = 0 := by
      rw [hmain]
      norm_num
    exact_mod_cast this
  · intro hp
    subst hp
    have : ((((applyOpacity img 100).pix x y).a : ℤ)) =
        (((toRGBA img).pix x y).a : ℤ) := by
      rw [hmain]
      norm_num
    exact_mod_cast this
  · intro hna
    simp [toRGBA, hna]

/-- Witness for the amended C4 at end-to-end scenario 3 of the spec: a fully
opaque pixel at opacity 30. -/
theorem opacity_alpha_floor_witness :
    (0 : ℤ) ≤ 30 ∧ (30 : ℤ) ≤ 100 ∧
    ((((applyOpacity (solidRaster 1 1 ⟨0, 0, 0, 255⟩ true) 30).pix 0 0).a : ℤ) =
      ⌊((((toRGBA (solidRaster 1 1 ⟨0, 0, 0, 255⟩ true)).pix 0 0).a : ℚ) *
        ((30 : ℚ) / 100))⌋) :=
  ⟨by norm_num, by norm_num,
   (opacity_alpha_floor (solidRaster 1 1 ⟨0, 0, 0, 255⟩ true) 30 0 0
     (by norm_num) (by norm_num)).1⟩

/-- C8. For every render, the top-left paste position of the graphic is
`paste_x = center.x + x_pos - resized_graphic.width // 2` (analogously for
y) with `center = (resized_base.width // 2, resized_base.height // 2)`, and
consequently the point `paste + resized_graphic.size // 2` — the center of
the graphic itself — lands exactly on `center + offset`: the graphic is centered on
the offset point rather than anchored at its corner. -/
theorem paste_position_centered (rb g : Raster) (xc yc : ℤ) (bw bh : ℕ) :
    (pastePosition rb g (reprojectOffset xc rb.width bw)
        (reprojectOffset yc rb.height bh)).1 =
      ((rb.width / 2 : ℕ) : ℤ) + reprojectOffset xc rb.width bw -
        ((g.width / 2 : ℕ) : ℤ) ∧
    (pastePosition rb g (reprojectOffset xc rb.width bw)
        (reprojectOffset yc rb.height bh)).2 =
      ((rb.height / 2 : ℕ) : ℤ) + reprojectOffset yc rb.height bh -
        ((g.height / 2 : ℕ) : ℤ) ∧
    (pastePosition rb g (reprojectOffset xc rb.width bw)
        (reprojectOffset yc rb.height bh)).1 + ((g.width / 2 : ℕ) : ℤ) =
      ((rb.width / 2 : ℕ) : ℤ) + reprojectOffset xc rb.width bw ∧
    (pastePosition rb g (reprojectOffset xc rb.width bw)
        (reprojectOffset yc rb.height bh)).2 + ((g.height / 2 : ℕ) : ℤ) =
      ((rb.height / 2 : ℕ) : ℤ) + reprojectOffset yc rb.height bh := by
  refine ⟨rfl, rfl, ?_, ?_⟩
  · simp only [pastePosition]
    ring
  · simp only [pastePosition]
    ring

/-- C9. Pasting one raster onto another never fails (the operation is
total), never changes the destination dimensions or mode, and is clipped
silently: every destination pixel outside the paste rectangle — in
particular all of them when the rectangle lies entirely off the buffer —
is left untouched, for any paste position whatsoever. -/
theorem paste_clipped_silently (dst src : Raster) (px py : ℤ) (m : Bool) :
    (dst.paste src px py m).width = dst.width ∧
    (dst.paste src px py m).height = dst.height ∧
    (dst.paste src px py m).hasAlpha = dst.hasAlpha ∧
    (∀ x y : ℕ,
      ((x : ℤ) < px ∨ px + (src.width : ℤ) ≤ (x : ℤ) ∨
       (y : ℤ) < py ∨ py + (src.height : ℤ) ≤ (y : ℤ)) →
      (dst.paste src px py m).pix x y = dst.pix x y) := by
  refine ⟨rfl, rfl, rfl, ?_⟩
  intro x y hxy
  show (if _ ∧ _ ∧ _ ∧ _ ∧ _ ∧ _ then _ else dst.pix x y) = dst.pix x y
  rw [if_neg]
  omega

/-- Witness for C9: pasting a 1×1 raster at x = 5 onto a 2×2 buffer (the
paste rectangle lies entirely outside the buffer) leaves pixel (0, 0)
unchanged. -/
theorem paste_clipped_silently_witness :
    (0 : ℤ) < 5 ∧
    ((solidRaster 2 2 ⟨1, 2, 3, 255⟩ false).paste
        (solidRaster 1 1 ⟨9, 9, 9, 255⟩ false) 5 0 false).pix 0 0 =
      (solidRaster 2 2 ⟨1, 2, 3, 255⟩ false).pix 0 0 :=
  ⟨by norm_num,
   (paste_clipped_silently (solidRaster 2 2 ⟨1, 2, 3, 255⟩ false)
       (solidRaster 1 1 ⟨9, 9, 9, 255⟩ false) 5 0 false).2.2.2 0 0
     (Or.inl (by norm_num))⟩

/-- Shared helper: the reference branch never writes `current_composite`. -/
theorem referenceStage_preserves_composite (k : ResampleKernel)
    (disk : String → Option Raster) (p : Params) (cw ch : ℕ) (st : AppState) :
    (referenceStage k disk p cw ch st).current_composite =
      st.current_composite := by
  unfold referenceStage
  cases hld : loadLayer disk st.cache.reference_path st.cache.reference_img
      p.reference_path with
  | error e => rfl
  | ok v =>
    obtain ⟨a, b, c⟩ := v
    rfl

/-- A parameter snapshot with the reference layer cleared. -/
def withoutReference (p : Params) : Params :=
  { p with reference_path := "" }

/-- C5. The reference layer is drawn only as a separate visual layer after
the composite: the reference branch leaves the stored composite untouched,
the export result of a state is unchanged by running the reference branch
on it, and the composite produced by a full render is identical to the one
produced with the reference layer cleared — so the exported pixels never
include the reference layer. -/
theorem reference_layer_never_exported (k : ResampleKernel)
    (disk : String → Option Raster) (p : Params) (cw ch rawW rawH : ℕ)
    (st : AppState) (bg : Bool) :
    (referenceStage k disk p cw ch st).current_composite =
      st.current_composite ∧
    (export_image (referenceStage k disk p cw ch st) bg).1 =
      (export_image st bg).1 ∧
    (update_preview k disk p rawW rawH st).current_composite =
      (update_preview k disk (withoutReference p) rawW rawH st).current_composite := by
  refine ⟨referenceStage_preserves_composite k disk p cw ch st, ?_, ?_⟩
  · have h := referenceStage_preserves_composite k disk p cw ch st
    simp only [export_image, h]
    cases st.current_composite <;> rfl
  · simp only [update_preview]
    have hng : ¬((withoutReference p).reference_path ≠ "" ∧
        (withoutReference p).show_reference) := by
      simp [withoutReference]
    rw [if_neg hng]
    by_cases href : (p.reference_path ≠ "" ∧ p.show_reference)
    · rw [if_pos href, referenceStage_preserves_composite]
      rfl
    · rw [if_neg href]
      rfl

/-- C7. Requesting export or save-as before any successful render (no
stored composite) reports the empty-composite error, returns the state
unchanged — parameters and cache are untouched — and produces no saved
image; the operation is a total function, so the process survives. -/
theorem export_without_render_fails (st : AppState) (bg : Bool)
    (chosen : Option String) (h : st.current_composite = none) :
    export_image st bg = (.emptyComposite, st) ∧
    save_as st bg chosen = (.emptyComposite, st) := by
  constructor
  · simp [export_image, h]
  · simp [save_as, h]

/-- Witness for C7: exporting from the initial state (no render has ever
happened). -/
theorem export_without_render_fails_witness :
    initState.current_composite = none ∧
    export_image initState false = (.emptyComposite, initState) ∧
    save_as initState false none = (.emptyComposite, initState) :=
  ⟨rfl, (export_without_render_fails initState false none rfl).1,
   (export_without_render_fails initState false none rfl).2⟩

/-- C10. Once a render has stored a composite, it persists until the next
successful render: a render pass with the base path or the graphic path
cleared leaves `current_composite` unchanged, and export fails with the
empty-composite error exactly when no composite is stored — when one is
stored, export succeeds and writes the last stored composite (optionally
padded), regardless of the current paths. -/
theorem composite_persists_until_next_render (k : ResampleKernel)
    (disk : String → Option Raster) (p : Params) (rawW rawH : ℕ)
    (st : AppState) (bg : Bool) (c : Raster)
    (hempty : p.base_path = "" ∨ p.graphic_path = "") :
    (update_preview k disk p rawW rawH st).current_composite =
      st.current_composite ∧
    (st.current_composite = some c →
      (export_image st bg).1 = .saved (apply_padding c bg)) ∧
    ((export_image st bg).1 = .emptyComposite ↔
      st.current_composite = none) := by
  refine ⟨?_, ?_, ?_⟩
  · have hg : ¬(p.base_path ≠ "" ∧ p.graphic_path ≠ "") := by
      rcases hempty with h | h <;> simp [h]
    simp only [update_preview, if_neg hg]
    by_cases href : (p.reference_path ≠ "" ∧ p.show_reference)
    · rw [if_pos href, referenceStage_preserves_composite]
    · rw [if_neg href]
  · intro hsome
    simp [export_image, hsome]
  · cases hc : st.current_composite <;> simp [export_image, hc]

/-- A kernel and a disk with nothing on it, for concrete instantiations. -/
def k0 : ResampleKernel :=
  fun _ _ _ _ => ⟨0, 0, 0, 255⟩

/-- Parameters with an empty base path but a graphic path set. -/
def emptyBaseParams : Params :=
  { base_path := "", graphic_path := "g.png", reference_path := "",
    x_coord := 0, y_coord := 0, scale_x := 100, scale_y := 100,
    show_reference := true, reference_opacity := 30, reference_x := 0,
    reference_y := 0, reference_scale_x := 100, reference_scale_y := 100,
    apply_background := false }

/-- A state in which some earlier render stored a 1×1 composite. -/
def renderedState : AppState :=
  { initState with current_composite := some (solidRaster 1 1 ⟨0, 0, 0, 255⟩ false) }

/-- Witness for C10: after clearing the base path, a render pass keeps the
stored composite and export still succeeds with it. -/
theorem composite_persists_until_next_render_witness :
    (emptyBaseParams.base_path = "" ∨ emptyBaseParams.graphic_path = "") ∧
    ((update_preview k0 (fun _ => none) emptyBaseParams 400 400
        renderedState).current_composite = renderedState.current_composite ∧
     (renderedState.current_composite = some (solidRaster 1 1 ⟨0, 0, 0, 255⟩ false) →
       (export_image renderedState false).1 =
         .saved (apply_padding (solidRaster 1 1 ⟨0, 0, 0, 255⟩ false) false)) ∧
     ((export_image renderedState false).1 = .emptyComposite ↔
       renderedState.current_composite = none)) :=
  ⟨Or.inl rfl,
   composite_persists_until_next_render k0 (fun _ => none) emptyBaseParams
     400 400 renderedState false (solidRaster 1 1 ⟨0, 0, 0, 255⟩ false)
     (Or.inl rfl)⟩

/-- C6. With background disabled, `apply_padding` returns the composite
unchanged.  With background enabled it returns an opaque buffer of size
(w + 2·⌊0.1·w⌋, h + 2·⌊0.1·h⌋): the padding amount is ⌊0.1·w⌋ per side,
every pixel of the border region is the fixed gray #b4b4b4, and the
composite occupies the centered rectangle at offset (⌊0.1·w⌋, ⌊0.1·h⌋) —
pasted opaquely when it has no alpha channel and alpha-blended onto the
gray when it does. -/
theorem apply_padding_spec (c : Raster) :
    apply_padding c false = c ∧
    (apply_padding c true).width = c.width + 2 * padAmount c.width ∧
    (apply_padding c true).height = c.height + 2 * padAmount c.height ∧
    (apply_padding c true).hasAlpha = false ∧
    ((padAmount c.width : ℤ) = ⌊(c.width : ℚ) * ((1 : ℚ) / 10)⌋ ∧
     (padAmount c.height : ℤ) = ⌊(c.height : ℚ) * ((1 : ℚ) / 10)⌋) ∧
    (∀ x y : ℕ,
      (x < padAmount c.width ∨ padAmount c.width + c.width ≤ x ∨
       y < padAmount c.height ∨ padAmount c.height + c.height ≤ y) →
      (apply_padding c true).pix x y = grayPixel) ∧
    (∀ i j : ℕ, i < c.width → j < c.height →
      (apply_padding c true).pix (padAmount c.width + i) (padAmount c.height + j) =
        if c.hasAlpha then blendPixel grayPixel (c.pix i j) else c.pix i j) := by
  have hq : ∀ n : ℕ, 0 ≤ (n : ℚ) * ((1 : ℚ) / 10) := fun n => by positivity
  have hpad : ∀ n : ℕ, (padAmount n : ℤ) = ⌊(n : ℚ) * ((1 : ℚ) / 10)⌋ := by
    intro n
    simp only [padAmount, pyInt_of_nonneg (hq n)]
    exact Int.toNat_of_nonneg (Int.floor_nonneg.mpr (hq n))
  refine ⟨rfl, ?_, ?_, rfl, ⟨hpad _, hpad _⟩, ?_, ?_⟩
  · show c.width + padAmount c.width * 2 = c.width + 2 * padAmount c.width
    ring
  · show c.height + padAmount c.height * 2 = c.height + 2 * padAmount c.height
    ring
  · intro x y hxy
    show (if _ ∧ _ ∧ _ ∧ _ ∧ _ ∧ _ then _ else grayPixel) = grayPixel
    rw [if_neg]
    omega
  · intro i j hi hj
    have hcond : 0 ≤ ((padAmount c.width + i : ℕ) : ℤ) - (padAmount c.width : ℤ) ∧
        ((padAmount c.width + i : ℕ) : ℤ) - (padAmount c.width : ℤ) < (c.width : ℤ) ∧
        0 ≤ ((padAmount c.height + j : ℕ) : ℤ) - (padAmount c.height : ℤ) ∧
        ((padAmount c.height + j : ℕ) : ℤ) - (padAmount c.height : ℤ) < (c.height : ℤ) ∧
        padAmount c.width + i < c.width + padAmount c.width * 2 ∧
        padAmount c.height + j < c.height + padAmount c.height * 2 := by
      omega
    show (if _ then _ else grayPixel) = _
    rw [if_pos hcond]
    have hx : (((padAmount c.width + i : ℕ) : ℤ) - (padAmount c.width : ℤ)).toNat = i := by
      omega
    have hy : (((padAmount c.height + j : ℕ) : ℤ) - (padAmount c.height : ℤ)).toNat = j := by
      omega
    rw [hx, hy]

/-- Witness for C6 on a 10×10 opaque composite: the corner pixel of the
padded export is the fixed gray, and the composite sits at offset (1, 1). -/
theorem apply_padding_spec_witness :
    (0 : ℕ) < padAmount 10 ∧ (0 : ℕ) < 10 ∧
    (apply_padding (solidRaster 10 10 ⟨5, 6, 7, 255⟩ false) true).pix 0 0 =
      grayPixel ∧
    (apply_padding (solidRaster 10 10 ⟨5, 6, 7, 255⟩ false) true).pix
        (padAmount 10 + 0) (padAmount 10 + 0) =
      (if (solidRaster 10 10 ⟨5, 6, 7, 255⟩ false).hasAlpha then
        blendPixel grayPixel ((solidRaster 10 10 ⟨5, 6, 7, 255⟩ false).pix 0 0)
      else (solidRaster 10 10 ⟨5, 6, 7, 255⟩ false).pix 0 0) :=
  ⟨by norm_num [padAmount, pyInt, solidRaster], by norm_num,
   (apply_padding_spec (solidRaster 10 10 ⟨5, 6, 7, 255⟩ false)).2.2.2.2.2.1 0 0
     (Or.inl (by norm_num [padAmount, pyInt, solidRaster])),
   (apply_padding_spec (solidRaster 10 10 ⟨5, 6, 7, 255⟩ false)).2.2.2.2.2.2 0 0
     (by norm_num [solidRaster]) (by norm_num [solidRaster])⟩

/-- C1 amended. A cached derived graphic raster is reused exactly when the
stored `(scale_x_pct, scale_y_pct)` pair equals the current pair and a
cached raster exists — that pair is the whole invalidation key.  On reuse
the cached raster is returned bit-identically with the cache untouched and
the resize filter is not re-invoked; otherwise the filter runs once and the
result is the fresh resize of the current decoded graphic raster.  Changing
the decoded graphic raster or the base ratio alone does not invalidate the
cache. -/
theorem graphic_cache_reuse_iff_scale_pair (k : ResampleKernel) (c : Cache)
    (g : Raster) (cw ch bw bh : ℕ) (sx sy : ℤ) (n : ℕ) :
    ((get_resized_graphic k c g cw ch bw bh sx sy n).2.2 = n ↔
      (c.last_scale = (sx, sy) ∧ c.resized_graphic.isSome)) ∧
    (∀ r, c.resized_graphic = some r → c.last_scale = (sx, sy) →
      (get_resized_graphic k c g cw ch bw bh sx sy n).1 = r ∧
      (get_resized_graphic k c g cw ch bw bh sx sy n).2.1 = c) ∧
    ((c.last_scale ≠ (sx, sy) ∨ c.resized_graphic = none) →
      (get_resized_graphic k c g cw ch bw bh sx sy n).1 =
        g.resize k (graphicDims cw ch bw bh g.width g.height sx sy).1
          (graphicDims cw ch bw bh g.width g.height sx sy).2 ∧
      (get_resized_graphic k c g cw ch bw bh sx sy n).2.2 = n + 1) := by
  by_cases hguard : (c.last_scale ≠ (sx, sy) ∨ c.resized_graphic.isNone)
  · have hcount : (get_resized_graphic k c g cw ch bw bh sx sy n).2.2 = n + 1 := by
      simp only [get_resized_graphic, if_pos hguard]
    have hfst : (get_resized_graphic k c g cw ch bw bh sx sy n).1 =
        g.resize k (graphicDims cw ch bw bh g.width g.height sx sy).1
          (graphicDims cw ch bw bh g.width g.height sx sy).2 := by
      simp only [get_resized_graphic, if_pos hguard]
    refine ⟨?_, ?_, fun _ => ⟨hfst, hcount⟩⟩
    · rw [hcount]
      constructor
      · intro h
        omega
      · rintro ⟨hsc, hsome⟩
        rcases hguard with hg | hg
        · exact absurd hsc hg
        · rw [Option.isNone_iff_eq_none] at hg
          rw [hg] at hsome
          simp at hsome
    · intro r hr hsc
      rcases hguard with hg | hg
      · exact absurd hsc hg
      · rw [Option.isNone_iff_eq_none] at hg
        rw [hg] at hr
        simp at hr
  · push_neg at hguard
    obtain ⟨hsc, hnn⟩ := hguard
    have hsome : c.resized_graphic.isSome := by
      cases h : c.resized_graphic with
      | none => rw [h] at hnn; simp at hnn
      | some r => simp
    have hif : ¬(c.last_scale ≠ (sx, sy) ∨ c.resized_graphic.isNone) := by
      push_neg
      exact ⟨hsc, hnn⟩
    have hcount : (get_resized_graphic k c g cw ch bw bh sx sy n).2.2 = n := by
      simp only [get_resized_graphic, if_neg hif]
    refine ⟨by rw [hcount]; simp [hsc, hsome], ?_, ?_⟩
    · intro r hr _
      constructor
      · have hfst : (get_resized_graphic k c g cw ch bw bh sx sy n).1 =
            c.resized_graphic.getD g := by
          simp only [get_resized_graphic, if_neg hif]
        rw [hfst, hr, Option.getD_some]
      · simp only [get_resized_graphic, if_neg hif]
    · intro habs
      rcases habs with h | h
      · exact absurd hsc h
      · rw [h] at hsome
        simp at hsome

/-- A 4×4 base image fixture. -/
def baseRaster4 : Raster :=
  solidRaster 4 4 ⟨0, 0, 0, 255⟩ false

/-- A 2×2 graphic fixture (the first graphic file). -/
def graphicRasterA : Raster :=
  solidRaster 2 2 ⟨1, 1, 1, 255⟩ false

/-- A 3×3 graphic fixture (the replacement graphic file). -/
def graphicRasterB : Raster :=
  solidRaster 3 3 ⟨2, 2, 2, 255⟩ false

/-- A disk holding the base image and the two graphic files. -/
def disk1 : String → Option Raster := fun s =>
  if s = "base.png" then some baseRaster4
  else if s = "a.png" then some graphicRasterA
  else if s = "b.png" then some graphicRasterB
  else none

/-- Parameters rendering base.png with graphic a.png at default offsets
and scales. -/
def paramsA : Params :=
  { base_path := "base.png", graphic_path := "a.png", reference_path := "",
    x_coord := 0, y_coord := 0, scale_x := 100, scale_y := 100,
    show_reference := true, reference_opacity := 30, reference_x := 0,
    reference_y := 0, reference_scale_x := 100, reference_scale_y := 100,
    apply_background := false }

/-- The same parameters after the user switches the graphic to b.png. -/
def paramsB : Params :=
  { paramsA with graphic_path := "b.png" }

/-- State after the first render (graphic a.png). -/
def stRun1 : AppState :=
  update_preview k0 disk1 paramsA 400 400 initState

/-- State after the second render (graphic switched to b.png, scales
unchanged). -/
def stRun2 : AppState :=
  update_preview k0 disk1 paramsB 400 400 stRun1

/-- C1 counterexample. Between the two renders the decoded graphic raster
changes (a 2×2 image is replaced by a 3×3 one) while the scale pair stays
(100, 100): the second render re-invokes the resize filter zero times and
returns the cached derived raster — still the one computed from the old
2×2 graphic — unchanged.  Changing the decoded graphic raster therefore
does not invalidate the cached derived raster, contrary to the claim. -/
theorem graphic_cache_stale_on_raster_change :
    stRun1.cache.graphic_img.map Raster.width = some 2 ∧
    stRun2.cache.graphic_img.map Raster.width = some 3 ∧
    stRun2.graphicResizeCount = stRun1.graphicResizeCount ∧
    stRun2.cache.resized_graphic = stRun1.cache.resized_graphic ∧
    stRun1.cache.resized_graphic =
      some (graphicRasterA.resize k0
        (graphicDims 400 400 4 4 2 2 100 100).1
        (graphicDims 400 400 4 4 2 2 100 100).2) :=
  ⟨rfl, rfl, rfl, rfl, rfl⟩

/-- Witness for the amended C1: with a populated cache whose stored scale
pair matches, the cached raster is returned and the cache is untouched. -/
theorem graphic_cache_reuse_iff_scale_pair_witness :
    stRun1.cache.resized_graphic =
      some (graphicRasterA.resize k0
        (graphicDims 400 400 4 4 2 2 100 100).1
        (graphicDims 400 400 4 4 2 2 100 100).2) ∧
    stRun1.cache.last_scale = (100, 100) ∧
    (get_resized_graphic k0 stRun1.cache graphicRasterB 400 400 4 4 100 100
        stRun1.graphicResizeCount).1 =
      graphicRasterA.resize k0
        (graphicDims 400 400 4 4 2 2 100 100).1
        (graphicDims 400 400 4 4 2 2 100 100).2 ∧
    (get_resized_graphic k0 stRun1.cache graphicRasterB 400 400 4 4 100 100
        stRun1.graphicResizeCount).2.1 = stRun1.cache :=
  ⟨rfl, rfl,
   ((graphic_cache_reuse_iff_scale_pair k0 stRun1.cache graphicRasterB
       400 400 4 4 100 100 stRun1.graphicResizeCount).2.1
     (graphicRasterA.resize k0
       (graphicDims 400 400 4 4 2 2 100 100).1
       (graphicDims 400 400 4 4 2 2 100 100).2) rfl rfl).1,
   ((graphic_cache_reuse_iff_scale_pair k0 stRun1.cache graphicRasterB
       400 400 4 4 100 100 stRun1.graphicResizeCount).2.1
     (graphicRasterA.resize k0
       (graphicDims 400 400 4 4 2 2 100 100).1
       (graphicDims 400 400 4 4 2 2 100 100).2) rfl rfl).2⟩

end ShirtPreview
